import Mathlib

/-!
Verification of the Log-Manager ingestion core (`src/services/LogParser.ts`,
`src/services/LogFormats.ts`) against its natural-language specification.
The TypeScript code is shallowly embedded: JS strings become `String`,
`undefined`-able fields become `Option`, the `Date` built-ins become an
explicit environment of functions, and the regular expressions of the format
registry are encoded as terms of a small backtracking regex interpreter with
JavaScript `exec` semantics (anchored or searched, greedy/lazy, numbered
capture groups, word boundaries).
-/

set_option autoImplicit false
set_option maxRecDepth 8000

namespace LogManager

/-! ## JavaScript string primitives -/

/-- JS `\s` character class (ASCII part; the inputs of interest are ASCII). -/
def isSpaceJS (c : Char) : Bool :=
  c == ' ' || c == '\t' || c == '\n' || c == '\r' || c == '\x0b' || c == '\x0c'

/-- JS `String.prototype.trim`. -/
def jsTrim (s : String) : String :=
  ⟨(s.data.dropWhile isSpaceJS).reverse.dropWhile isSpaceJS |>.reverse⟩

/-- Does `hay` start with `needle` (char-list version)? -/
def startsWithL : List Char → List Char → Bool
  | _, [] => true
  | [], _ :: _ => false
  | c :: cs, d :: ds => c == d && startsWithL cs ds

/-- Substring containment on char lists; `includesL hay needle` is JS
`hay.includes(needle)`. -/
def includesL : List Char → List Char → Bool
  | hay, needle =>
    startsWithL hay needle ||
      match hay with
      | [] => false
      | _ :: cs => includesL cs needle

/-- JS `String.prototype.includes`. -/
def jsIncludes (s t : String) : Bool := includesL s.data t.data

/-- JS `String.prototype.startsWith`. -/
def jsStartsWith (s t : String) : Bool := startsWithL s.data t.data

/-- JS `String.prototype.toUpperCase` (ASCII). -/
def jsToUpper (s : String) : String := ⟨s.data.map Char.toUpper⟩

/-- JS `String.prototype.toLowerCase` (ASCII). -/
def jsToLower (s : String) : String := ⟨s.data.map Char.toLower⟩

/-- JS `String.prototype.substring(n)` / array-free suffix drop. -/
def jsDrop (s : String) (n : Nat) : String := ⟨s.data.drop n⟩

/-- Split a char list at every occurrence of `c` (JS `split` with a
one-character separator). -/
def splitCharL (c : Char) : List Char → List (List Char)
  | [] => [[]]
  | x :: xs =>
    match splitCharL c xs with
    | [] => [[]]
    | h :: t => if x == c then [] :: h :: t else (x :: h) :: t

/-- JS `s.split(sep)` for a one-character separator. -/
def jsSplitChar (c : Char) (s : String) : List String := (splitCharL c s.data).map String.mk

/-- JS `s.replace(',', '.')`: replace the first comma only. -/
def replaceCommaAux : List Char → List Char
  | [] => []
  | c :: cs => if c == ',' then '.' :: cs else c :: replaceCommaAux cs

/-- JS `timestamp.replace(',', '.')`. -/
def jsReplaceCommaDot (s : String) : String := ⟨replaceCommaAux s.data⟩

/-- JS falsiness on an optional string: `undefined` and `""` are falsy. -/
def jsTruthyS : Option String → Bool
  | none => false
  | some s => s != ""

/-- JS `a || b` for an optional string `a` and a string default `b`. -/
def jsOrS (a : Option String) (b : String) : String :=
  match a with
  | none => b
  | some s => if s == "" then b else s

/-- Split on `/\r?\n/`: split at every `\n`, dropping an immediately
preceding `\r`. -/
def splitLines (content : String) : List String :=
  (jsSplitChar '\n' content).map fun s =>
    if s.data.getLast? == some '\r' then ⟨s.data.dropLast⟩ else s

/-! ## A small regex interpreter with JS `exec` semantics -/

/-- Regular-expression syntax: character classes, sequencing, alternation
(left-preferred), greedy or lazy Kleene star, numbered capture groups, word
boundary `\b` and end anchor `$`. -/
inductive RE where
  | eps
  | cls (p : Char → Bool)
  | seq (a b : RE)
  | alt (a b : RE)
  | star (lazy : Bool) (a : RE)
  | group (n : Nat) (a : RE)
  | wordB
  | eos

/-- Number of syntax nodes, used to bound the interpreter fuel. -/
def reSize : RE → Nat
  | .eps | .cls _ | .wordB | .eos => 1
  | .seq a b | .alt a b => reSize a + reSize b + 1
  | .star _ a | .group _ a => reSize a + 1

/-- Capture list: group number paired with captured text. -/
abbrev Caps := List (Nat × String)

/-- JS `\w` word character. -/
def isWordChar (c : Char) : Bool := c.isAlphanum || c == '_'

/-- Is there a `\b` word boundary between the previously consumed character
and the rest of the input? -/
def boundaryAt (prev : Option Char) (rest : List Char) : Bool :=
  let pw := match prev with | some c => isWordChar c | none => false
  let nw := match rest with | c :: _ => isWordChar c | [] => false
  pw != nw

/-- Result of a match attempt: remaining input and captures. -/
abbrev ReRes := Option (List Char × Caps)

/-- Backtracking CPS matcher. `prev` is the character just before the current
position (for `\b`), `k` the continuation receiving the rest of the input.
Greedy star tries the body first, lazy star tries the continuation first;
alternation prefers its left branch — exactly the JS backtracking order. -/
def reM (fuel : Nat) (r : RE) (prev : Option Char) (s : List Char) (caps : Caps)
    (k : Option Char → List Char → Caps → ReRes) : ReRes :=
  match fuel with
  | 0 => none
  | fuel + 1 =>
    match r with
    | .eps => k prev s caps
    | .cls p =>
      match s with
      | [] => none
      | c :: rest => if p c then k (some c) rest caps else none
    | .seq a b => reM fuel a prev s caps fun p2 s2 c2 => reM fuel b p2 s2 c2 k
    | .alt a b =>
      match reM fuel a prev s caps k with
      | some res => some res
      | none => reM fuel b prev s caps k
    | .star lazy a =>
      if lazy then
        match k prev s caps with
        | some res => some res
        | none => reM fuel a prev s caps fun p2 s2 c2 => reM fuel (.star lazy a) p2 s2 c2 k
      else
        match reM fuel a prev s caps (fun p2 s2 c2 => reM fuel (.star lazy a) p2 s2 c2 k) with
        | some res => some res
        | none => k prev s caps
    | .group n a =>
      reM fuel a prev s caps fun p2 s2 c2 =>
        k p2 s2 ((n, String.mk (s.take (s.length - s2.length))) :: c2)
    | .wordB => if boundaryAt prev s then k prev s caps else none
    | .eos =>
      match s with
      | [] => k prev s caps
      | _ :: _ => none

/-- Fuel that dominates the depth of any derivation: every star iteration in
the patterns below consumes at least one character. -/
def reFuel (r : RE) (s : List Char) : Nat := (s.length + 2) * (reSize r + 2)

/-- Try to match `r` at the current position, returning the matched text and
the captures. -/
def reRun (r : RE) (prev : Option Char) (s : List Char) : Option (String × Caps) :=
  match reM (reFuel r s) r prev s [] (fun _ rest caps => some (rest, caps)) with
  | some (rest, caps) => some (String.mk (s.take (s.length - rest.length)), caps)
  | none => none

/-- JS `pattern.exec(line)` for a pattern anchored with a leading `^`. -/
def reExec (r : RE) (s : String) : Option (String × Caps) := reRun r none s.data

/-- Unanchored search: try every start position left to right. -/
def reSearchAux (r : RE) (prev : Option Char) : List Char → Option (String × Caps)
  | [] => reRun r prev []
  | c :: cs =>
    match reRun r prev (c :: cs) with
    | some res => some res
    | none => reSearchAux r (some c) cs

/-- JS `line.match(pattern)` for an unanchored pattern (first match). -/
def reSearch (r : RE) (s : String) : Option (String × Caps) := reSearchAux r none s.data

/-- Group lookup: JS `match[n]`, `none` when the group did not participate. -/
def capGet (caps : Caps) (n : Nat) : Option String :=
  (caps.find? fun p => p.1 == n).map (·.2)

/-! Convenience constructors mirroring the regex notation. -/

/-- Literal character. -/
def rch (c : Char) : RE := .cls (· == c)

/-- Literal string. -/
def rstr (s : String) : RE := (s.data.map rch).foldr .seq .eps

/-- Case-insensitive literal string (the `/i` flag). -/
def rstrCI (s : String) : RE :=
  (s.data.map fun c => RE.cls (fun x => x.toLower == c.toLower)).foldr .seq .eps

/-- Sequence of regexes. -/
def rseq (l : List RE) : RE := l.foldr .seq .eps

/-- `r{n}`. -/
def rep (n : Nat) (r : RE) : RE := rseq (List.replicate n r)

/-- `r?` (greedy). -/
def ropt (r : RE) : RE := .alt r .eps

/-- `r{0,n}` (greedy). -/
def repTo : Nat → RE → RE
  | 0, _ => .eps
  | n + 1, r => ropt (.seq r (repTo n r))

/-- `r+` (greedy). -/
def rplus (r : RE) : RE := .seq r (.star false r)

/-- `r*` (greedy). -/
def rstar (r : RE) : RE := .star false r

/-- `r*?` (lazy). -/
def rstarLazy (r : RE) : RE := .star true r

/-- `\d`. -/
def rdigit : RE := .cls Char.isDigit

/-- `\w`. -/
def rword : RE := .cls isWordChar

/-- `\s`. -/
def rwsp : RE := .cls isSpaceJS

/-- `\S`. -/
def rnwsp : RE := .cls fun c => !isSpaceJS c

/-- `.` : any character except line terminators. -/
def rdot : RE := .cls fun c => c != '\n' && c != '\r'

/-- `[^\]]`. -/
def rnotRB : RE := .cls (· != ']')

/-- `[+-]`. -/
def rsign : RE := .cls fun c => c == '+' || c == '-'

/-! ## The patterns of `LogFormats.ts`, encoded as `RE` terms -/

/-- `/^(\d{4}-\d{2}-\d{2}T\d{2}:\d{2}:\d{2}\.\d{3}[+-]\d{2}:\d{2})\s+(\w+)\s+\d+\s+---\s+\[[^\]]+\]\s+\[[^\]]+\]\s+([^\s]+)\s*:\s*(.*\|.*\|.*)$/`
(Spring Boot with Pipe Data). -/
def springBootPattern : RE := rseq [
  .group 1 (rseq [rep 4 rdigit, rch '-', rep 2 rdigit, rch '-', rep 2 rdigit, rch 'T',
    rep 2 rdigit, rch ':', rep 2 rdigit, rch ':', rep 2 rdigit, rch '.', rep 3 rdigit,
    rsign, rep 2 rdigit, rch ':', rep 2 rdigit]),
  rplus rwsp, .group 2 (rplus rword), rplus rwsp, rplus rdigit, rplus rwsp,
  rstr "---", rplus rwsp,
  rch '[', rplus rnotRB, rch ']', rplus rwsp,
  rch '[', rplus rnotRB, rch ']', rplus rwsp,
  .group 3 (rplus rnwsp), rstar rwsp, rch ':', rstar rwsp,
  .group 4 (rseq [rstar rdot, rch '|', rstar rdot, rch '|', rstar rdot]),
  .eos]

/-- `/^\d{4}-\d{2}-\d{2}\s+\d{2}:\d{2}:\d{2},\d{3}\s+\w+\s+\[[^\]]+\]\s+[^\s-]+\s+-\s+.+/`
(Tomcat/Catalina). Note: no capture groups. -/
def tomcatPattern : RE := rseq [
  rep 4 rdigit, rch '-', rep 2 rdigit, rch '-', rep 2 rdigit, rplus rwsp,
  rep 2 rdigit, rch ':', rep 2 rdigit, rch ':', rep 2 rdigit, rch ',', rep 3 rdigit,
  rplus rwsp, rplus rword, rplus rwsp,
  rch '[', rplus rnotRB, rch ']', rplus rwsp,
  rplus (.cls fun c => !isSpaceJS c && c != '-'), rplus rwsp, rch '-', rplus rwsp,
  rplus rdot]

/-- `/^\d{4}-\d{2}-\d{2}T\d{2}:\d{2}:\d{2}(?:\.\d{1,3})?(?:Z|[+-]\d{2}:?\d{2})?\s*\[\w+\]\s+.+/`
(ISO DateTime). No capture groups. -/
def isoPattern : RE := rseq [
  rep 4 rdigit, rch '-', rep 2 rdigit, rch '-', rep 2 rdigit, rch 'T',
  rep 2 rdigit, rch ':', rep 2 rdigit, rch ':', rep 2 rdigit,
  ropt (.seq (rch '.') (.seq rdigit (repTo 2 rdigit))),
  ropt (.alt (rch 'Z') (rseq [rsign, rep 2 rdigit, ropt (rch ':'), rep 2 rdigit])),
  rstar rwsp, rch '[', rplus rword, rch ']', rplus rwsp, rplus rdot]

/-- `/^\d{4}-\d{2}-\d{2}\s+\d{2}:\d{2}:\d{2}(?:\.\d{1,3})?\s+\w+\s+.+/`
(Simple DateTime). No capture groups. -/
def simplePattern : RE := rseq [
  rep 4 rdigit, rch '-', rep 2 rdigit, rch '-', rep 2 rdigit, rplus rwsp,
  rep 2 rdigit, rch ':', rep 2 rdigit, rch ':', rep 2 rdigit,
  ropt (.seq (rch '.') (.seq rdigit (repTo 2 rdigit))),
  rplus rwsp, rplus rword, rplus rwsp, rplus rdot]

/-- `/^.*?:\s*(.*\|.*\|.*)$/` (Dynamic Pipe Separated). -/
def dynamicPipePattern : RE := rseq [
  rstarLazy rdot, rch ':', rstar rwsp,
  .group 1 (rseq [rstar rdot, rch '|', rstar rdot, rch '|', rstar rdot]),
  .eos]

/-- `/^\[[^\]]+\]\s+\w+:\s+.+$/` (Common Format). No capture groups. -/
def commonPattern : RE := rseq [
  rch '[', rplus rnotRB, rch ']', rplus rwsp, rplus rword, rch ':', rplus rwsp,
  rplus rdot, .eos]

/-- `/^\w{3}\s+\d{1,2}\s+\d{2}:\d{2}:\d{2}\s+\S+\[\d+\]\s+\w+:\s+.+$/` (Syslog-like).
No capture groups. -/
def syslogPattern : RE := rseq [
  rep 3 rword, rplus rwsp, .seq rdigit (repTo 1 rdigit), rplus rwsp,
  rep 2 rdigit, rch ':', rep 2 rdigit, rch ':', rep 2 rdigit, rplus rwsp,
  rplus rnwsp, rch '[', rplus rdigit, rch ']', rplus rwsp, rplus rword, rch ':',
  rplus rwsp, rplus rdot, .eos]

/-- `/\d{4}-\d{2}-\d{2}[T\s]\d{2}:\d{2}:\d{2}/` (basic-extractor timestamp probe,
unanchored). -/
def basicTimestampPattern : RE := rseq [
  rep 4 rdigit, rch '-', rep 2 rdigit, rch '-', rep 2 rdigit,
  .cls (fun c => c == 'T' || isSpaceJS c),
  rep 2 rdigit, rch ':', rep 2 rdigit, rch ':', rep 2 rdigit]

/-- `/\b(ERROR|WARN(?:ING)?|INFO|DEBUG|TRACE)\b/i` (basic-extractor level probe,
unanchored, case-insensitive). -/
def basicLevelPattern : RE := rseq [
  .wordB,
  .group 1 (.alt (rstrCI "ERROR") (.alt (.seq (rstrCI "WARN") (ropt (rstrCI "ING")))
    (.alt (rstrCI "INFO") (.alt (rstrCI "DEBUG") (rstrCI "TRACE"))))),
  .wordB]

/-- `/^(\d{4}-\d{2}-\d{2}T\d{2}:\d{2}:\d{2}\.\d{3}[+-]\d{2}:\d{2})/` (dynamic-pipe
timestamp back-fill, anchored). -/
def leadingIsoPattern : RE :=
  .group 1 (rseq [rep 4 rdigit, rch '-', rep 2 rdigit, rch '-', rep 2 rdigit, rch 'T',
    rep 2 rdigit, rch ':', rep 2 rdigit, rch ':', rep 2 rdigit, rch '.', rep 3 rdigit,
    rsign, rep 2 rdigit, rch ':', rep 2 rdigit])

/-- `/\s+(INFO|ERROR|WARN|DEBUG|TRACE)\s+/` (dynamic-pipe level back-fill,
unanchored). -/
def embeddedLevelPattern : RE := rseq [
  rplus rwsp,
  .group 1 (.alt (rstr "INFO") (.alt (rstr "ERROR") (.alt (rstr "WARN")
    (.alt (rstr "DEBUG") (rstr "TRACE"))))),
  rplus rwsp]

/-- `/\]\s+([a-zA-Z0-9_.]+)\s+:/` (dynamic-pipe source back-fill, unanchored). -/
def embeddedSourcePattern : RE := rseq [
  rch ']', rplus rwsp,
  .group 1 (rplus (.cls fun c => c.isAlphanum || c == '_' || c == '.')),
  rplus rwsp, rch ':']

/-- `/^\d+\.\d+\.\d+\.\d+$/` (IP-address shape test). -/
def ipPattern : RE := rseq [
  rplus rdigit, rch '.', rplus rdigit, rch '.', rplus rdigit, rch '.', rplus rdigit,
  .eos]

/-- `/^\s+at\s+/` (whitespace-indented `at` continuation test, anchored). -/
def indentAtPattern : RE := rseq [rplus rwsp, rstr "at", rplus rwsp]

/-! ## Data model -/

/-- A JS value stored in the open `additionalInfo` bag: a string, an array of
strings (`attemptedFormats`, `parts`), or `undefined` (assigning a missing
array element to a property stores `undefined` under the key). -/
inductive JVal where
  | str (s : String)
  | arr (xs : List String)
  | undef
deriving DecidableEq, Repr

/-- A JS object with insertion order, as written by the extractors. -/
abbrev Info := List (String × JVal)

/-- JS property assignment `obj[k] = v`: overwrite in place or append. -/
def setInfo (info : Info) (k : String) (v : JVal) : Info :=
  match info with
  | [] => [(k, v)]
  | (k2, v2) :: rest => if k2 == k then (k, v) :: rest else (k2, v2) :: setInfo rest k v

/-- JS property read `obj[k]`: `none` when the key is absent. -/
def getInfo (info : Info) (k : String) : Option JVal :=
  (info.find? fun p => p.1 == k).map (·.2)

/-- Assign an optional string (`obj.k = parts[i]`, where `parts[i]` may be
`undefined`). -/
def setInfoOpt (info : Info) (k : String) (v : Option String) : Info :=
  setInfo info k (match v with | some s => .str s | none => .undef)

/-- String value of `obj.k` when it is a string; `none` for absent,
`undefined` or array values (a strict `===` against a string fails there). -/
def infoStr (info : Option Info) (k : String) : Option String :=
  match info with
  | none => none
  | some i =>
    match getInfo i k with
    | some (.str s) => some s
    | _ => none

/-- JS truthiness of a property value. Note a JS array is truthy even when
empty, while `""` and `undefined` are falsy. -/
def jvalTruthy : Option JVal → Bool
  | some (.str s) => s != ""
  | some (.arr _) => true
  | some .undef => false
  | none => false

/-- JS coercion of a property value to a string key (`String(v)`). -/
def jvalKey : JVal → String
  | .str s => s
  | .arr xs => String.intercalate "," xs
  | .undef => "undefined"

/-- The canonical finalized record (`LogEntry` of `LogTypes.ts`). The object
pushed by `finalizeCurrentEntry` has no `eventType` property, so that field
is `none` on every parser output. -/
structure LogEntry where
  timestamp : String
  level : String
  message : String
  source : Option String := none
  stackTrace : Option String := none
  eventType : Option String := none
  additionalInfo : Option Info := none
deriving DecidableEq, Repr

/-- `Partial<LogEntry>`: the in-flight record built by an extractor. -/
structure PartialEntry where
  timestamp : Option String := none
  level : Option String := none
  message : Option String := none
  source : Option String := none
  stackTrace : Option String := none
  eventType : Option String := none
  additionalInfo : Option Info := none
deriving DecidableEq, Repr

/-- The impure JS `Date` built-ins, abstracted: the ingestion instant
(`new Date().toISOString()`), `Date.parse` (`none` = `NaN` / Invalid Date),
`toISOString` on a valid time value, and local `getHours`. -/
structure JsEnv where
  nowIso : String
  parseDate : String → Option Int
  isoOf : Int → String
  hoursOf : Int → Nat

/-- JS template-literal interpolation of a possibly-`undefined` string. -/
def jsShow (o : Option String) : String := o.getD "undefined"

/-! ## The extractors of `LogFormats.ts` -/

/-- Extractor of the `Spring Boot with Pipe Data` format. -/
def springBootExtract (_whole : String) (caps : Caps) : PartialEntry :=
  let timestamp := capGet caps 1
  let level := capGet caps 2
  let source := capGet caps 3
  let pipeContent := jsTrim ((capGet caps 4).getD "")
  let parts := (jsSplitChar '|' pipeContent).map jsTrim
  let logType := parts.headD ""
  let entry : PartialEntry :=
    { timestamp := timestamp, level := level, source := source,
      additionalInfo := some [], eventType := some logType }
  if logType == "TRANSACTION" then
    let info := setInfoOpt [] "uniqueId" parts[1]?
    let info := setInfoOpt info "txType" parts[2]?
    let info := setInfoOpt info "status" parts[4]?
    let info := List.foldl (fun info part =>
      if jsStartsWith part "response=" then setInfo info "response" (.str (jsDrop part 9))
      else if jsStartsWith part "ofsResponse=" then setInfo info "ofsResponse" (.str (jsDrop part 12))
      else if (reExec ipPattern part).isSome then setInfo info "remoteAddr" (.str part)
      else info) info (parts.drop 5)
    { entry with
      additionalInfo := some info,
      message := some ("Transaction " ++ jsShow parts[2]? ++ " with ID " ++ jsShow parts[1]?
        ++ " - Status: " ++ jsShow parts[4]?) }
  else
    { entry with
      additionalInfo := some (setInfo [] "parts" (.arr parts)),
      message := some pipeContent }

/-- Extractor of the `Tomcat/Catalina` format. The pattern has no capture
groups, so every `match[i]` it reads is `undefined`. -/
def tomcatExtract (_whole : String) (caps : Caps) : PartialEntry :=
  { timestamp := capGet caps 1, level := capGet caps 2, source := capGet caps 4,
    message := capGet caps 5,
    additionalInfo := some (setInfoOpt [] "thread" (capGet caps 3)) }

/-- Extractor of the `ISO DateTime` format (pattern has no capture groups). -/
def isoExtract (_whole : String) (caps : Caps) : PartialEntry :=
  { timestamp := capGet caps 1, level := capGet caps 2, message := capGet caps 3 }

/-- Extractor of the `Simple DateTime` format (pattern has no capture groups). -/
def simpleExtract (_whole : String) (caps : Caps) : PartialEntry :=
  { timestamp := capGet caps 1, level := capGet caps 2, message := capGet caps 3 }

/-- The discriminator switch of the `Dynamic Pipe Separated` extractor,
acting on the trimmed captured payload. -/
def dynamicPipeSwitch (pipeContent : String) : PartialEntry :=
  let parts := (jsSplitChar '|' pipeContent).map jsTrim
  let logType := parts.headD ""
  let entry0 : PartialEntry := { additionalInfo := some [], eventType := some logType }
  if logType == "AUTH_EVENT" then
      let info := setInfoOpt [] "username" parts[2]?
      let info := setInfoOpt info "remoteAddr" parts[3]?
      let info := setInfoOpt info "action" parts[4]?
      let info := setInfoOpt info "response" parts[5]?
      let info := setInfoOpt info "ofsResponse" parts[6]?
      { entry0 with
        timestamp := parts[1]?, additionalInfo := some info,
        message := some ("Authentication event for user " ++ jsShow parts[2]?) }
    else if logType == "ACCOUNT_QUERY" then
      let info := setInfoOpt [] "accountNo" parts[1]?
      let info := setInfoOpt info "remoteAddr" parts[3]?
      let info := setInfoOpt info "status" parts[4]?
      let info := setInfoOpt info "response" parts[5]?
      let info := setInfoOpt info "ofsResponse" parts[6]?
      { entry0 with
        timestamp := parts[2]?, additionalInfo := some info,
        message := some ("Account query for " ++ jsShow parts[1]?) }
    else if logType == "CARD_STATUS" then
      let info := setInfoOpt [] "cardNo" parts[1]?
      let info := setInfoOpt info "remoteAddr" parts[3]?
      let info := setInfoOpt info "action" parts[4]?
      let info := setInfoOpt info "status" parts[5]?
      let info := setInfoOpt info "response" parts[6]?
      let info := setInfoOpt info "ofsResponse" parts[7]?
      { entry0 with
        timestamp := parts[2]?, additionalInfo := some info,
        message := some ("Card status check for " ++ jsShow parts[1]?) }
    else if logType == "TRANSACTION" then
      let info := setInfoOpt [] "uniqueId" parts[1]?
      let info := setInfoOpt info "txType" parts[2]?
      let info := setInfoOpt info "status" parts[4]?
      let info := List.foldl (fun info part =>
        if jsStartsWith part "response=" then setInfo info "response" (.str (jsDrop part 9))
        else if jsStartsWith part "ofsResponse=" then setInfo info "ofsResponse" (.str (jsDrop part 12))
        else if !jvalTruthy (getInfo info "remoteAddr") && (reExec ipPattern part).isSome then
          setInfo info "remoteAddr" (.str part)
        else if part != "" && !jvalTruthy (getInfo info "response")
            && !jvalTruthy (getInfo info "ofsResponse") then
          setInfo info "response" (.str part)
        else info) info (parts.drop 5)
      { entry0 with
        timestamp := parts[3]?, additionalInfo := some info,
        message := some ("Transaction " ++ jsShow parts[2]? ++ " with ID " ++ jsShow parts[1]?
          ++ " - Status: " ++ jsShow parts[4]?) }
    else if logType == "ERROR" then
      let info := setInfoOpt [] "uniqueId" parts[1]?
      let info := setInfoOpt info "eventType" parts[3]?
      let info := setInfoOpt info "status" parts[4]?
      let info := setInfoOpt info "response" parts[6]?
      let info := setInfoOpt info "ofsResponse" parts[7]?
      { entry0 with
        timestamp := parts[2]?, level := some "ERROR",
        message := some (jsOrS parts[5]? ("Error event for " ++ jsShow parts[1]?)),
        additionalInfo := some info }
    else if logType == "OTHER_EVENT" then
      let customFields := (parts.drop 3).take (parts.length - 2 - 3)
      let info := setInfoOpt [] "remoteAddr" parts[2]?
      let info := List.foldl (fun info idx =>
        setInfoOpt info ("customField" ++ toString (idx + 1)) customFields[idx]?)
        info (List.range customFields.length)
      let info := setInfoOpt info "response" parts[parts.length - 2]?
      let info := setInfoOpt info "ofsResponse" parts[parts.length - 1]?
      { entry0 with
        timestamp := parts[1]?, additionalInfo := some info,
        message := some ("Other event: " ++ String.intercalate ", " customFields) }
    else
      { entry0 with
        additionalInfo := some (setInfo [] "parts" (.arr parts)),
        message := some ("Unknown log type: " ++ logType) }

/-- Extractor of the `Dynamic Pipe Separated` format: the discriminator
switch on the captured payload, then the timestamp / level / source
back-fill scans over the full matched line (`match[0]`). -/
def dynamicPipeExtract (whole : String) (caps : Caps) : PartialEntry :=
  let entry := dynamicPipeSwitch (jsTrim ((capGet caps 1).getD ""))
  let entry :=
    match reExec leadingIsoPattern whole with
    | some (_, caps2) => { entry with timestamp := capGet caps2 1 }
    | none => entry
  let entry :=
    match reSearch embeddedLevelPattern whole with
    | some (_, caps2) =>
      if !jsTruthyS entry.level then { entry with level := capGet caps2 1 } else entry
    | none => entry
  match reSearch embeddedSourcePattern whole with
  | some (_, caps2) => { entry with source := capGet caps2 1 }
  | none => entry

/-- Extractor of the `Common Format` (pattern has no capture groups). -/
def commonExtract (_whole : String) (caps : Caps) : PartialEntry :=
  { timestamp := capGet caps 1, level := capGet caps 2, message := capGet caps 3 }

/-- Extractor of the `Syslog-like` format (pattern has no capture groups). -/
def syslogExtract (_whole : String) (caps : Caps) : PartialEntry :=
  { timestamp := capGet caps 1, source := capGet caps 2, level := capGet caps 4,
    message := capGet caps 5,
    additionalInfo := some (setInfoOpt [] "pid" (capGet caps 3)) }

/-- A format-registry entry; the extractor receives `match[0]` and the
capture list. -/
structure LogFormat where
  name : String
  pattern : RE
  extract : String → Caps → PartialEntry

/-- The ordered format registry (`logFormats` of `LogFormats.ts`). -/
def logFormats : List LogFormat := [
  { name := "Spring Boot with Pipe Data", pattern := springBootPattern,
    extract := springBootExtract },
  { name := "Tomcat/Catalina", pattern := tomcatPattern, extract := tomcatExtract },
  { name := "ISO DateTime", pattern := isoPattern, extract := isoExtract },
  { name := "Simple DateTime", pattern := simplePattern, extract := simpleExtract },
  { name := "Dynamic Pipe Separated", pattern := dynamicPipePattern,
    extract := dynamicPipeExtract },
  { name := "Common Format", pattern := commonPattern, extract := commonExtract },
  { name := "Syslog-like", pattern := syslogPattern, extract := syslogExtract }]

/-! ## The line parser (`LogParser.ts`) -/

/-- `normalizeTimestamp`: replace a first comma by a period, parse, emit the
canonical ISO string; fall back to the ingestion instant on failure. -/
def normalizeTimestamp (env : JsEnv) (timestamp : String) : String :=
  match env.parseDate (if jsIncludes timestamp "," then jsReplaceCommaDot timestamp
      else timestamp) with
  | some t => env.isoOf t
  | none => env.nowIso

/-- `extractBasicInfo`: the two last-resort probes. -/
def extractBasicInfo (env : JsEnv) (line : String) : Option PartialEntry :=
  let timestampMatch := reSearch basicTimestampPattern line
  let levelMatch := reSearch basicLevelPattern line
  if timestampMatch.isSome || levelMatch.isSome then
    some { timestamp := some (match timestampMatch with | some (w, _) => w | none => env.nowIso),
           level := some (match levelMatch with | some (w, _) => jsToUpper w | none => "UNKNOWN"),
           message := some line,
           additionalInfo := some [("parseNote", .str "Partial match using basic extraction")] }
  else none

/-- The registered format names, as collected in `attemptedFormats` when no
format matches. -/
def formatNames : List String := logFormats.map (·.name)

/-- The unknown-format fallback record of `parseLogContent`. -/
def unknownEntry (env : JsEnv) (line : String) : PartialEntry :=
  { timestamp := some env.nowIso, level := some "UNKNOWN", message := some line,
    additionalInfo := some [("parseNote", .str "No matching format found"),
      ("attemptedFormats", .arr formatNames), ("originalLine", .str line)] }

/-- First-match-wins dispatch over the format registry. -/
def tryFormats : List LogFormat → String → Option PartialEntry
  | [], _ => none
  | f :: fs, line =>
    match reExec f.pattern line with
    | some (whole, caps) => some (f.extract whole caps)
    | none => tryFormats fs line

/-- The partial entry a record-starting line opens: first matching format,
else basic extraction, else the unknown-format fallback. -/
def startEntry (env : JsEnv) (line : String) : PartialEntry :=
  match tryFormats logFormats line with
  | some pe => pe
  | none =>
    match extractBasicInfo env line with
    | some pe => pe
    | none => unknownEntry env line

/-- The continuation-line (stack-trace) test of `parseLogContent`. -/
def isContLine (line : String) : Bool :=
  jsStartsWith (jsTrim line) "at " || jsStartsWith (jsTrim line) "Caused by: " ||
    (reExec indentAtPattern line).isSome

/-- `finalizeCurrentEntry`, acting on the current entry and its stack-trace
buffer: attach the newline-joined buffer when non-empty, then normalize the
timestamp, upper-case the level (defaulting to `UNKNOWN`) and default the
remaining fields. The pushed object has no `eventType` property. -/
def finalizeRecord (env : JsEnv) (ce : PartialEntry) (stack : List String) : LogEntry :=
  let ce := if stack != [] then { ce with stackTrace := some (String.intercalate "\n" stack) }
            else ce
  { timestamp := normalizeTimestamp env (jsOrS ce.timestamp env.nowIso),
    level := jsToUpper (jsOrS ce.level "UNKNOWN"),
    message := jsOrS ce.message "",
    source := ce.source,
    stackTrace := ce.stackTrace,
    eventType := none,
    additionalInfo := some (ce.additionalInfo.getD []) }

/-- Parser state: the unfinalized current entry, its stack-trace buffer, and
the finalized output so far. -/
structure PState where
  current : Option PartialEntry
  stack : List String
  entries : List LogEntry
deriving DecidableEq

/-- Finalize the current entry (no-op when there is none). -/
def finalizeState (env : JsEnv) (st : PState) : PState :=
  match st.current with
  | none => st
  | some ce =>
    { current := none, stack := [],
      entries := st.entries ++ [finalizeRecord env ce st.stack] }

/-- One iteration of the `lines.forEach` body of `parseLogContent`. -/
def parseStep (env : JsEnv) (st : PState) (line : String) : PState :=
  if jsTrim line == "" then st
  else if isContLine line && st.current.isSome then
    { st with stack := st.stack ++ [line] }
  else
    let st := finalizeState env st
    { st with current := some (startEntry env line) }

/-- The initial parser state. -/
def initState : PState := { current := none, stack := [], entries := [] }

/-- The core of `parseLogContent`, over an already-split line list. -/
def parseLogLines (env : JsEnv) (lines : List String) : List LogEntry :=
  (finalizeState env (lines.foldl (parseStep env) initState)).entries

/-- `LogParser.parseLogContent`. -/
def parseLogContent (env : JsEnv) (content : String) : List LogEntry :=
  parseLogLines env (splitLines content)

/-! ## Grouping view of the parser

The parser loop, restated as: partition the non-blank lines into consecutive
groups, each a record-starting line with its continuation lines, then build
one record per group. The equivalence is proved below and carries the
order-preservation, stack-trace and never-drop claims. -/

/-- Grouping state: the open group and the closed groups. -/
structure GState where
  cur : Option (String × List String)
  done : List (String × List String)
deriving DecidableEq

/-- One line of the grouping pass, mirroring `parseStep`. -/
def groupStep (st : GState) (line : String) : GState :=
  if jsTrim line == "" then st
  else if isContLine line && st.cur.isSome then
    { st with cur := st.cur.map fun g => (g.1, g.2 ++ [line]) }
  else
    { cur := some (line, []), done := st.done ++ st.cur.toList }

/-- Partition the lines into record groups. -/
def groupLines (lines : List String) : List (String × List String) :=
  let st := lines.foldl groupStep { cur := none, done := [] }
  st.done ++ st.cur.toList

/-- The record a group produces. -/
def mkRecord (env : JsEnv) (g : String × List String) : LogEntry :=
  finalizeRecord env (startEntry env g.1) g.2

/-- The record-starting lines of an input, in order. -/
def recordStarts (lines : List String) : List String := (groupLines lines).map Prod.fst

/-! ## The filter engine (`filterLogs`) -/

/-- A filter predicate (`LogFilter` of `LogTypes.ts`). Date fields hold a JS
`Date` when present; the inner `Option Int` is its time value (`none` =
Invalid Date, whose comparisons are all false). -/
structure LogFilter where
  startDate : Option (Option Int) := none
  endDate : Option (Option Int) := none
  level : Option String := none
  searchTerm : Option String := none
  source : Option String := none
  accountNo : Option String := none
  uniqueId : Option String := none
  eventType : Option String := none
  cardNo : Option String := none
  username : Option String := none
  status : Option String := none

/-- JS `<` between two `Date` values: false when either is `NaN`. -/
def dateLt : Option Int → Option Int → Bool
  | some a, some b => a < b
  | _, _ => false

/-- The `searchTerm` disjunction of `filterLogs`. -/
def searchHit (log : LogEntry) (term : String) : Bool :=
  let searchLower := jsToLower term
  jsIncludes (jsToLower log.message) searchLower ||
  (jsTruthyS log.source && jsIncludes (jsToLower (log.source.getD "")) searchLower) ||
  (jsTruthyS log.stackTrace && jsIncludes (jsToLower (log.stackTrace.getD "")) searchLower) ||
  (log.level != "" && jsIncludes (jsToLower log.level) searchLower) ||
  (jsTruthyS log.eventType && jsIncludes (jsToLower (log.eventType.getD "")) searchLower) ||
  (match log.additionalInfo with
   | some info => info.any fun p =>
      match p.2 with
      | .str v => jsIncludes (jsToLower v) searchLower
      | _ => false
   | none => false)

/-- The per-record predicate of `filterLogs`: the early-return cascade of the
source, written as nested conditionals in the same order. -/
def logPred (env : JsEnv) (f : LogFilter) (log : LogEntry) : Bool :=
  if f.startDate.isSome && dateLt (env.parseDate log.timestamp) (f.startDate.getD none) then false
  else if f.endDate.isSome && dateLt (f.endDate.getD none) (env.parseDate log.timestamp) then false
  else if jsTruthyS f.level && (jsToUpper log.level != jsToUpper (f.level.getD "")) then false
  else if jsTruthyS f.source &&
      (jsTruthyS log.source && !jsIncludes (log.source.getD "") (f.source.getD "")) then false
  else if jsTruthyS f.uniqueId &&
      !((infoStr log.additionalInfo "uniqueId" == f.uniqueId) ||
        (log.message != "" && jsIncludes log.message (f.uniqueId.getD "")) ||
        (log.level == f.uniqueId.getD "")) then false
  else if jsTruthyS f.accountNo &&
      !((infoStr log.additionalInfo "accountNo" == f.accountNo) ||
        (log.message != "" && jsIncludes log.message (f.accountNo.getD "")) ||
        (log.level == f.accountNo.getD "")) then false
  else if jsTruthyS f.cardNo &&
      !((infoStr log.additionalInfo "cardNo" == f.cardNo) ||
        (log.message != "" && jsIncludes log.message (f.cardNo.getD "")) ||
        (log.level == f.cardNo.getD "")) then false
  else if jsTruthyS f.username &&
      !((infoStr log.additionalInfo "username" == f.username) ||
        (log.message != "" && jsIncludes log.message (f.username.getD ""))) then false
  else if jsTruthyS f.status &&
      !((infoStr log.additionalInfo "status" == f.status) ||
        (log.message != "" &&
          jsIncludes (jsToUpper log.message) (jsToUpper (f.status.getD "")))) then false
  else if jsTruthyS f.eventType &&
      !((log.eventType == f.eventType) ||
        (log.message != "" && jsIncludes log.message (f.eventType.getD ""))) then false
  else if jsTruthyS f.searchTerm then searchHit log (f.searchTerm.getD "")
  else true

/-- `LogParser.filterLogs`. -/
def filterLogs (env : JsEnv) (logs : List LogEntry) (f : LogFilter) : List LogEntry :=
  logs.filter (logPred env f)

/-- Keep the first field when it is an active (truthy) constraint, otherwise
the second. -/
def pickS (a b : Option String) : Option String := if jsTruthyS a then a else b

/-- Keep the first date bound when present, otherwise the second. -/
def pickD (a b : Option (Option Int)) : Option (Option Int) := if a.isSome then a else b

/-- Field-wise union of two filters that constrain disjoint field sets. -/
def combineF (f1 f2 : LogFilter) : LogFilter :=
  { startDate := pickD f1.startDate f2.startDate,
    endDate := pickD f1.endDate f2.endDate,
    level := pickS f1.level f2.level,
    searchTerm := pickS f1.searchTerm f2.searchTerm,
    source := pickS f1.source f2.source,
    accountNo := pickS f1.accountNo f2.accountNo,
    uniqueId := pickS f1.uniqueId f2.uniqueId,
    eventType := pickS f1.eventType f2.eventType,
    cardNo := pickS f1.cardNo f2.cardNo,
    username := pickS f1.username f2.username,
    status := pickS f1.status f2.status }

/-- No field is actively constrained by both filters. -/
def DisjointF (f1 f2 : LogFilter) : Prop :=
  (f1.startDate.isSome && f2.startDate.isSome) = false ∧
  (f1.endDate.isSome && f2.endDate.isSome) = false ∧
  (jsTruthyS f1.level && jsTruthyS f2.level) = false ∧
  (jsTruthyS f1.source && jsTruthyS f2.source) = false ∧
  (jsTruthyS f1.uniqueId && jsTruthyS f2.uniqueId) = false ∧
  (jsTruthyS f1.accountNo && jsTruthyS f2.accountNo) = false ∧
  (jsTruthyS f1.cardNo && jsTruthyS f2.cardNo) = false ∧
  (jsTruthyS f1.username && jsTruthyS f2.username) = false ∧
  (jsTruthyS f1.status && jsTruthyS f2.status) = false ∧
  (jsTruthyS f1.eventType && jsTruthyS f2.eventType) = false ∧
  (jsTruthyS f1.searchTerm && jsTruthyS f2.searchTerm) = false

/-! ## The statistics aggregator (`calculateStats`) -/

/-- A `Record<string, number>` with insertion order. -/
abbrev Dist := List (String × Nat)

/-- `(d[k] || 0) + 1` followed by assignment. -/
def bump (d : Dist) (k : String) : Dist :=
  match d with
  | [] => [(k, 1)]
  | (k2, n) :: rest => if k2 == k then (k2, n + 1) :: rest else (k2, n) :: bump rest k

/-- A nested `Record<string, Record<string, number>>`. -/
abbrev DDist := List (String × Dist)

/-- `if (!dd[k1]) dd[k1] = {}; dd[k1][k2] = (dd[k1][k2] || 0) + 1`. -/
def bump2 (dd : DDist) (k1 k2 : String) : DDist :=
  match dd with
  | [] => [(k1, bump [] k2)]
  | (k, d) :: rest => if k == k1 then (k, bump d k2) :: rest else (k, d) :: bump2 rest k1 k2

/-- `LogStats` of `LogTypes.ts`. -/
structure LogStats where
  totalEntries : Nat
  errorCount : Nat
  warningCount : Nat
  infoCount : Nat
  sourcesDistribution : Dist
  timeDistribution : Dist
  accountNoDistribution : Dist
  uniqueIdDistribution : Dist
  eventTypeDistribution : Dist
  statusDistribution : Dist
  dateAccountNoDistribution : DDist
  dateUniqueIdDistribution : DDist
deriving DecidableEq

/-- The initial statistics object (`totalEntries` is `logs.length`). -/
def statsInit (n : Nat) : LogStats :=
  { totalEntries := n, errorCount := 0, warningCount := 0, infoCount := 0,
    sourcesDistribution := [], timeDistribution := [], accountNoDistribution := [],
    uniqueIdDistribution := [], eventTypeDistribution := [], statusDistribution := [],
    dateAccountNoDistribution := [], dateUniqueIdDistribution := [] }

/-- The `switch (log.level.toUpperCase())` level counter. -/
def countLevel (stats : LogStats) (log : LogEntry) : LogStats :=
  if jsToUpper log.level == "ERROR" then
    { stats with errorCount := stats.errorCount + 1 }
  else if jsToUpper log.level == "WARN" || jsToUpper log.level == "WARNING" then
    { stats with warningCount := stats.warningCount + 1 }
  else if jsToUpper log.level == "INFO" then
    { stats with infoCount := stats.infoCount + 1 }
  else stats

/-- `n.toString().padStart(2, '0')`. -/
def padStart2 (s : String) : String :=
  if s.length < 2 then ⟨List.replicate (2 - s.length) '0' ++ s.data⟩ else s

/-- The body of the `logs.forEach` loop of `calculateStats`. The hour bucket
calls `new Date(log.timestamp).toISOString()`, which throws on an invalid
date: that is the `none` result, aborting the whole call. -/
def statStep (env : JsEnv) (stats0 : LogStats) (log : LogEntry) : Option LogStats :=
  let stats := countLevel stats0 log
  let stats :=
    if jsTruthyS log.source then
      { stats with sourcesDistribution := bump stats.sourcesDistribution (log.source.getD "") }
    else stats
  match env.parseDate log.timestamp with
  | none => none
  | some t =>
    let isoDate := ((jsSplitChar 'T' (env.isoOf t)).headD "")
    let hour := isoDate ++ "T" ++ padStart2 (toString (env.hoursOf t))
    let stats := { stats with timeDistribution := bump stats.timeDistribution hour }
    let stats :=
      if jvalTruthy (log.additionalInfo.bind fun i => getInfo i "accountNo") then
        let acc := jvalKey ((log.additionalInfo.bind fun i => getInfo i "accountNo").getD .undef)
        { stats with
          accountNoDistribution := bump stats.accountNoDistribution acc,
          dateAccountNoDistribution := bump2 stats.dateAccountNoDistribution isoDate acc }
      else stats
    let stats :=
      if jvalTruthy (log.additionalInfo.bind fun i => getInfo i "uniqueId") then
        let uid := jvalKey ((log.additionalInfo.bind fun i => getInfo i "uniqueId").getD .undef)
        { stats with
          uniqueIdDistribution := bump stats.uniqueIdDistribution uid,
          dateUniqueIdDistribution := bump2 stats.dateUniqueIdDistribution isoDate uid }
      else stats
    let stats :=
      if jsTruthyS log.eventType then
        { stats with
          eventTypeDistribution := bump stats.eventTypeDistribution (log.eventType.getD "") }
      else stats
    let stats :=
      if jvalTruthy (log.additionalInfo.bind fun i => getInfo i "status") then
        { stats with
          statusDistribution := bump stats.statusDistribution
            (jvalKey ((log.additionalInfo.bind fun i => getInfo i "status").getD .undef)) }
      else stats
    some stats

/-- `LogParser.calculateStats`; `none` models the uncaught exception thrown
by `toISOString` on a record whose timestamp does not parse. -/
def calculateStats (env : JsEnv) (logs : List LogEntry) : Option LogStats :=
  logs.foldlM (statStep env) (statsInit logs.length)

/-! ## Auxiliary definitions for the verification -/

/-- The start-date rejection test of `filterLogs`, negated (true = passes). -/
def chkStartDate (env : JsEnv) (log : LogEntry) (x : Option (Option Int)) : Bool :=
  !(x.isSome && dateLt (env.parseDate log.timestamp) (x.getD none))

/-- The end-date rejection test of `filterLogs`, negated. -/
def chkEndDate (env : JsEnv) (log : LogEntry) (x : Option (Option Int)) : Bool :=
  !(x.isSome && dateLt (x.getD none) (env.parseDate log.timestamp))

/-- The level rejection test of `filterLogs`, negated. -/
def chkLevel (log : LogEntry) (x : Option String) : Bool :=
  !(jsTruthyS x && (jsToUpper log.level != jsToUpper (x.getD "")))

/-- The source rejection test of `filterLogs`, negated. -/
def chkSource (log : LogEntry) (x : Option String) : Bool :=
  !(jsTruthyS x && (jsTruthyS log.source && !jsIncludes (log.source.getD "") (x.getD "")))

/-- The uniqueId rejection test of `filterLogs`, negated. -/
def chkUniqueId (log : LogEntry) (x : Option String) : Bool :=
  !(jsTruthyS x &&
    !((infoStr log.additionalInfo "uniqueId" == x) ||
      (log.message != "" && jsIncludes log.message (x.getD "")) ||
      (log.level == x.getD "")))

/-- The accountNo rejection test of `filterLogs`, negated. -/
def chkAccountNo (log : LogEntry) (x : Option String) : Bool :=
  !(jsTruthyS x &&
    !((infoStr log.additionalInfo "accountNo" == x) ||
      (log.message != "" && jsIncludes log.message (x.getD "")) ||
      (log.level == x.getD "")))

/-- The cardNo rejection test of `filterLogs`, negated. -/
def chkCardNo (log : LogEntry) (x : Option String) : Bool :=
  !(jsTruthyS x &&
    !((infoStr log.additionalInfo "cardNo" == x) ||
      (log.message != "" && jsIncludes log.message (x.getD "")) ||
      (log.level == x.getD "")))

/-- The username rejection test of `filterLogs`, negated (no level slot). -/
def chkUsername (log : LogEntry) (x : Option String) : Bool :=
  !(jsTruthyS x &&
    !((infoStr log.additionalInfo "username" == x) ||
      (log.message != "" && jsIncludes log.message (x.getD ""))))

/-- The status rejection test of `filterLogs`, negated (no level slot; the
message probe is case-insensitive). -/
def chkStatus (log : LogEntry) (x : Option String) : Bool :=
  !(jsTruthyS x &&
    !((infoStr log.additionalInfo "status" == x) ||
      (log.message != "" && jsIncludes (jsToUpper log.message) (jsToUpper (x.getD "")))))

/-- The eventType rejection test of `filterLogs`, negated. -/
def chkEventType (log : LogEntry) (x : Option String) : Bool :=
  !(jsTruthyS x &&
    !((log.eventType == x) ||
      (log.message != "" && jsIncludes log.message (x.getD ""))))

/-- The searchTerm test of `filterLogs` (vacuously true when unset). -/
def chkSearch (log : LogEntry) (x : Option String) : Bool :=
  !(jsTruthyS x && !searchHit log (x.getD ""))

/-- Simulation invariant between a parser state and a grouping state: the
finalized entries are the records of the closed groups, and the open entry
(with its stack buffer) corresponds to the open group. -/
def StInv (env : JsEnv) (st : PState) (gst : GState) : Prop :=
  st.entries = gst.done.map (mkRecord env) ∧
  match st.current, gst.cur with
  | none, none => st.stack = []
  | some pe, some g => pe = startEntry env g.1 ∧ st.stack = g.2
  | _, _ => False

/-- `MustConsume p r` holds when every successful match of `r` consumes at
least one character satisfying `p`. -/
def MustConsume (p : Char → Bool) : RE → Prop
  | .cls q => ∀ c, q c = true → p c = true
  | .seq a b => MustConsume p a ∨ MustConsume p b
  | .alt a b => MustConsume p a ∧ MustConsume p b
  | .group _ a => MustConsume p a
  | _ => False

/-- A concrete environment whose date parser rejects everything. -/
def envW : JsEnv :=
  { nowIso := "NOW", parseDate := fun _ => none, isoOf := fun _ => "", hoursOf := fun _ => 0 }

/-- A concrete environment whose date parser accepts everything as the epoch. -/
def envP : JsEnv :=
  { nowIso := "1970-01-01T00:00:00.000Z", parseDate := fun _ => some 0,
    isoOf := fun _ => "1970-01-01T00:00:00.000Z", hoursOf := fun _ => 0 }

/-! # Theorems -/

/-! ## Simulation: the parser loop is the grouping pass plus `mkRecord` -/

theorem stInv_step (env : JsEnv) (st : PState) (gst : GState) (line : String)
    (h : StInv env st gst) : StInv env (parseStep env st line) (groupStep gst line) := by
  unfold StInv at h ⊢
  obtain ⟨he, hc⟩ := h
  cases hcu : st.current with
  | none =>
    cases hgc : gst.cur with
    | some g => rw [hcu, hgc] at hc; exact absurd hc (by simp)
    | none =>
      rw [hcu, hgc] at hc
      simp only [] at hc
      by_cases hb : (jsTrim line == "") = true
      · simp only [parseStep, groupStep, hb, if_true]
        rw [hcu, hgc]
        exact ⟨he, hc⟩
      · rw [Bool.not_eq_true] at hb
        simp only [parseStep, groupStep, hb, Bool.false_eq_true, if_false, hcu, hgc,
          Option.isSome_none, Bool.and_false, finalizeState]
        refine ⟨by simpa using he, ?_⟩
        simp [hc]
  | some pe =>
    cases hgc : gst.cur with
    | none => rw [hcu, hgc] at hc; exact absurd hc (by simp)
    | some g =>
      rw [hcu, hgc] at hc
      simp only [] at hc
      obtain ⟨hpe, hst⟩ := hc
      by_cases hb : (jsTrim line == "") = true
      · simp only [parseStep, groupStep, hb, if_true]
        rw [hcu, hgc]
        exact ⟨he, hpe, hst⟩
      · rw [Bool.not_eq_true] at hb
        by_cases hcl : isContLine line = true
        · simp only [parseStep, groupStep, hb, Bool.false_eq_true, if_false, hcu, hgc,
            Option.isSome_some, Bool.and_true, hcl, if_true, Option.map_some]
          exact ⟨he, hpe, by simp [hst]⟩
        · rw [Bool.not_eq_true] at hcl
          simp only [parseStep, groupStep, hb, Bool.false_eq_true, if_false, hcu, hgc,
            Option.isSome_some, Bool.and_true, hcl, finalizeState]
          refine ⟨?_, by simp⟩
          simp only [List.map_append, Option.toList_some, List.map_cons, List.map_nil]
          rw [he, hpe, hst]
          rfl
theorem stInv_fold (env : JsEnv) (lines : List String) :
    ∀ (st : PState) (gst : GState), StInv env st gst →
      StInv env (lines.foldl (parseStep env) st) (lines.foldl groupStep gst) := by
  induction lines with
  | nil => intro st gst h; exact h
  | cons l ls ih => intro st gst h; exact ih _ _ (stInv_step env st gst l h)

theorem parse_eq_groups (env : JsEnv) (lines : List String) :
    parseLogLines env lines = (groupLines lines).map (mkRecord env) := by
  have h := stInv_fold env lines initState ⟨none, []⟩ ⟨rfl, rfl⟩
  unfold StInv at h
  obtain ⟨he, hc⟩ := h
  unfold parseLogLines groupLines
  cases hcu : (List.foldl (parseStep env) initState lines).current with
  | none =>
    cases hgc : (List.foldl groupStep ⟨none, []⟩ lines).cur with
    | some g => rw [hcu, hgc] at hc; exact absurd hc (by simp)
    | none =>
      rw [hcu, hgc] at hc
      simp only [finalizeState, hcu, hgc, Option.toList_none, List.append_nil, List.map_append]
      simpa using he
  | some pe =>
    cases hgc : (List.foldl groupStep ⟨none, []⟩ lines).cur with
    | none => rw [hcu, hgc] at hc; exact absurd hc (by simp)
    | some g =>
      rw [hcu, hgc] at hc
      obtain ⟨hpe, hst⟩ := hc
      simp only [finalizeState, hcu, hgc, Option.toList_some, List.map_append,
        List.map_cons, List.map_nil]
      rw [he, hpe, hst]
      rfl

/-! ## Group starts are non-blank -/

theorem groupFold_not_blank (lines : List String) :
    ∀ gst : GState,
      (∀ g ∈ gst.done ++ gst.cur.toList, (jsTrim g.1 == "") = false) →
      ∀ g ∈ (lines.foldl groupStep gst).done ++ (lines.foldl groupStep gst).cur.toList,
        (jsTrim g.1 == "") = false := by
  induction lines with
  | nil => intro gst h; exact h
  | cons l ls ih =>
    intro gst h
    refine ih (groupStep gst l) ?_
    intro g hg
    unfold groupStep at hg
    by_cases hb : (jsTrim l == "") = true
    · rw [if_pos hb] at hg; exact h g hg
    · rw [Bool.not_eq_true] at hb
      rw [if_neg (by simp [hb])] at hg
      by_cases hcl : (isContLine l && gst.cur.isSome) = true
      · rw [if_pos hcl] at hg
        rcases List.mem_append.mp hg with hg2 | hg2
        · exact h g (List.mem_append.mpr (Or.inl hg2))
        · cases hgc : gst.cur with
          | none => rw [hgc] at hcl; simp at hcl
          | some g0 =>
            rw [hgc] at hg2
            simp at hg2
            subst hg2
            exact h (g0.1, g0.2) (List.mem_append.mpr (Or.inr (by simp [hgc])))
      · rw [if_neg hcl] at hg
        rcases List.mem_append.mp hg with hg2 | hg2
        · exact h g hg2
        · simp only [Option.toList_some, List.mem_singleton] at hg2
          subst hg2
          exact hb

theorem groupLines_not_blank (lines : List String) :
    ∀ g ∈ groupLines lines, (jsTrim g.1 == "") = false := by
  intro g hg
  exact groupFold_not_blank lines ⟨none, []⟩ (by simp) g hg

/-! ## Regex engine facts: a match of `indentAtPattern` needs a non-space -/

theorem reM_dead (fuel : Nat) (r : RE) (prev : Option Char) (s : List Char) (caps : Caps)
    (k : Option Char → List Char → Caps → ReRes)
    (hk : ∀ p2 s2 c2, s2 <:+ s → k p2 s2 c2 = none) :
    reM fuel r prev s caps k = none := by
  induction fuel generalizing r prev s caps k with
  | zero => rfl
  | succ fuel ih =>
    cases r with
    | eps => exact hk _ _ _ (List.suffix_refl s)
    | cls p =>
      cases s with
      | nil => rfl
      | cons c rest =>
        simp only [reM]
        by_cases hp : p c = true
        · rw [if_pos hp]; exact hk _ _ _ (List.suffix_cons c rest)
        · rw [if_neg hp]
    | seq a b =>
      exact ih a prev s caps _ fun p2 s2 c2 hs2 =>
        ih b p2 s2 c2 k fun p3 s3 c3 hs3 => hk _ _ _ (hs3.trans hs2)
    | alt a b =>
      simp only [reM]
      rw [ih a prev s caps k hk, ih b prev s caps k hk]
    | star lz a =>
      simp only [reM]
      cases lz with
      | true =>
        simp only [if_true]
        rw [hk prev s caps (List.suffix_refl s)]
        exact ih a prev s caps _ fun p2 s2 c2 hs2 =>
          ih (.star true a) p2 s2 c2 k fun p3 s3 c3 hs3 => hk _ _ _ (hs3.trans hs2)
      | false =>
        simp only [Bool.false_eq_true, if_false]
        rw [ih a prev s caps _ fun p2 s2 c2 hs2 =>
          ih (.star false a) p2 s2 c2 k fun p3 s3 c3 hs3 => hk _ _ _ (hs3.trans hs2)]
        exact hk prev s caps (List.suffix_refl s)
    | group n a =>
      exact ih a prev s caps _ fun p2 s2 c2 hs2 => hk _ _ _ hs2
    | wordB =>
      simp only [reM]
      by_cases hbd : boundaryAt prev s = true
      · rw [if_pos hbd]; exact hk _ _ _ (List.suffix_refl s)
      · rw [if_neg hbd]
    | eos =>
      cases s with
      | nil => exact hk _ _ _ (List.suffix_refl [])
      | cons c rest => rfl

theorem reM_mustConsume (p : Char → Bool) (fuel : Nat) (r : RE) (prev : Option Char)
    (s : List Char) (caps : Caps) (k : Option Char → List Char → Caps → ReRes)
    (hmc : MustConsume p r) (hs : ∀ c ∈ s, p c = false) :
    reM fuel r prev s caps k = none := by
  induction fuel generalizing r prev s caps k with
  | zero => rfl
  | succ fuel ih =>
    cases r with
    | eps => exact absurd hmc (by simp [MustConsume])
    | wordB => exact absurd hmc (by simp [MustConsume])
    | eos => exact absurd hmc (by simp [MustConsume])
    | star lz a => exact absurd hmc (by simp [MustConsume])
    | cls q =>
      cases s with
      | nil => rfl
      | cons c rest =>
        simp only [reM]
        have hq : q c = false := by
          cases hqc : q c with
          | false => rfl
          | true =>
            have := hmc c hqc
            rw [hs c (by simp)] at this
            exact absurd this (by simp)
        rw [if_neg (by simp [hq])]
    | alt a b =>
      obtain ⟨ha, hb⟩ := hmc
      simp only [reM]
      rw [ih a prev s caps k ha hs, ih b prev s caps k hb hs]
    | group n a =>
      exact ih a prev s caps _ hmc hs
    | seq a b =>
      rcases hmc with ha | hb
      · exact ih a prev s caps _ ha hs
      · exact reM_dead fuel a prev s caps _ fun p2 s2 c2 hs2 =>
          ih b p2 s2 c2 k hb fun c hc => hs c (hs2.subset hc)

theorem indentAt_mustConsume : MustConsume (fun c => !isSpaceJS c) indentAtPattern := by
  refine Or.inr (Or.inl (Or.inl ?_))
  intro c hc
  rw [eq_of_beq hc]
  decide

theorem indentAt_all_space (l : String) (hsp : ∀ c ∈ l.data, isSpaceJS c = true) :
    reExec indentAtPattern l = none := by
  unfold reExec reRun
  rw [reM_mustConsume (fun c => !isSpaceJS c) _ _ _ _ _ _ indentAt_mustConsume
    (fun c hc => by simp [hsp c hc])]

theorem jsTrim_empty_all_space (l : String) (h : (jsTrim l == "") = true) :
    ∀ c ∈ l.data, isSpaceJS c = true := by
  have he : jsTrim l = "" := eq_of_beq h
  unfold jsTrim at he
  have hdata : ((l.data.dropWhile isSpaceJS).reverse.dropWhile isSpaceJS).reverse = [] :=
    congrArg String.data he
  rw [List.reverse_eq_nil_iff, List.dropWhile_eq_nil_iff] at hdata
  have hdrop : ∀ c ∈ l.data.dropWhile isSpaceJS, isSpaceJS c = true := by
    intro c hc
    exact hdata c (List.mem_reverse.mpr hc)
  intro c hc
  rw [← List.takeWhile_append_dropWhile (p := isSpaceJS) (l := l.data)] at hc
  rcases List.mem_append.mp hc with hc2 | hc2
  · exact List.mem_takeWhile_imp hc2
  · exact hdrop c hc2

theorem isContLine_not_blank (l : String) (h : isContLine l = true) :
    (jsTrim l == "") = false := by
  cases hb : (jsTrim l == "") with
  | false => rfl
  | true =>
    exfalso
    have htr : jsTrim l = "" := eq_of_beq hb
    unfold isContLine at h
    rw [htr, indentAt_all_space l (jsTrim_empty_all_space l hb)] at h
    simp [jsStartsWith, startsWithL] at h

/-! ## Stack-trace grouping computation -/

theorem groupFold_conts (conts : List String) :
    ∀ (start : String) (acc : List String) (done : List (String × List String)),
      (∀ l ∈ conts, isContLine l = true) →
      conts.foldl groupStep ⟨some (start, acc), done⟩ = ⟨some (start, acc ++ conts), done⟩ := by
  induction conts with
  | nil => intro start acc done _; simp
  | cons l ls ih =>
    intro start acc done h
    have hl : isContLine l = true := h l (by simp)
    have hb : (jsTrim l == "") = false := isContLine_not_blank l hl
    simp only [List.foldl_cons]
    have hstep : groupStep ⟨some (start, acc), done⟩ l = ⟨some (start, acc ++ [l]), done⟩ := by
      unfold groupStep
      rw [if_neg (by simp [hb]), if_pos (by simp [hl])]
      simp
    rw [hstep, ih start (acc ++ [l]) done (fun x hx => h x (by simp [hx]))]
    simp

theorem groupLines_start_conts (start : String) (conts : List String)
    (hs : (jsTrim start == "") = false)
    (hc : ∀ l ∈ conts, isContLine l = true) :
    groupLines (start :: conts) = [(start, conts)] := by
  unfold groupLines
  simp only [List.foldl_cons]
  have hstep : groupStep ⟨none, []⟩ start = ⟨some (start, []), []⟩ := by
    unfold groupStep
    rw [if_neg (by simp [hs])]
    simp
  rw [hstep, groupFold_conts conts start [] [] hc]
  simp

/-! ## Projections of `finalizeRecord` -/

theorem finalizeRecord_level (env : JsEnv) (ce : PartialEntry) (stack : List String) :
    (finalizeRecord env ce stack).level = jsToUpper (jsOrS ce.level "UNKNOWN") := by
  unfold finalizeRecord
  by_cases h : (stack != []) = true <;> simp [h]

theorem finalizeRecord_message (env : JsEnv) (ce : PartialEntry) (stack : List String) :
    (finalizeRecord env ce stack).message = jsOrS ce.message "" := by
  unfold finalizeRecord
  by_cases h : (stack != []) = true <;> simp [h]

theorem finalizeRecord_timestamp (env : JsEnv) (ce : PartialEntry) (stack : List String) :
    (finalizeRecord env ce stack).timestamp =
      normalizeTimestamp env (jsOrS ce.timestamp env.nowIso) := by
  unfold finalizeRecord
  by_cases h : (stack != []) = true <;> simp [h]

theorem finalizeRecord_stackTrace_ne (env : JsEnv) (ce : PartialEntry) (stack : List String)
    (h : stack ≠ []) :
    (finalizeRecord env ce stack).stackTrace = some (String.intercalate "\n" stack) := by
  unfold finalizeRecord
  rw [if_pos (by simp [h])]

theorem normalizeTimestamp_shape (env : JsEnv) (ts : String) :
    (∃ t : Int, normalizeTimestamp env ts = env.isoOf t) ∨
      normalizeTimestamp env ts = env.nowIso := by
  unfold normalizeTimestamp
  cases hp : env.parseDate (if jsIncludes ts "," then jsReplaceCommaDot ts else ts) with
  | none => exact Or.inr rfl
  | some t => exact Or.inl ⟨t, rfl⟩

/-! ## Claim theorems: parser -/

/-- Claim C5: for every input text, the output of `parseLogContent` is the
order-preserving image of the record groups: the i-th record is built from
the i-th record-starting line (with its continuation lines), and continuation
lines never create separate entries; in particular the number of records
equals the number of record-starting lines. -/
theorem order_preservation (env : JsEnv) (content : String) :
    parseLogContent env content = (groupLines (splitLines content)).map (mkRecord env) ∧
    (parseLogContent env content).length = (recordStarts (splitLines content)).length := by
  have h : parseLogContent env content = (groupLines (splitLines content)).map (mkRecord env) :=
    parse_eq_groups env (splitLines content)
  refine ⟨h, ?_⟩
  rw [h]
  unfold recordStarts
  simp

/-- Claim C4: a record-starting (non-blank) line followed by N ≥ 1
continuation lines yields exactly one record whose stackTrace is those N
lines newline-joined in input order; the continuation lines produce no
separate records. -/
theorem stack_trace_attachment (env : JsEnv) (start : String) (conts : List String)
    (hs : (jsTrim start == "") = false)
    (hne : conts ≠ [])
    (hc : ∀ l ∈ conts, isContLine l = true) :
    parseLogLines env (start :: conts) = [mkRecord env (start, conts)] ∧
    (mkRecord env (start, conts)).stackTrace = some (String.intercalate "\n" conts) := by
  constructor
  · rw [parse_eq_groups, groupLines_start_conts start conts hs hc]
    rfl
  · exact finalizeRecord_stackTrace_ne env _ conts hne

/-- Witness for C4 at a concrete input. -/
theorem stack_trace_attachment_witness :
    ((jsTrim "hello" == "") = false ∧ (["at a", "  at b"] : List String) ≠ [] ∧
      (∀ l ∈ (["at a", "  at b"] : List String), isContLine l = true)) ∧
    (parseLogLines envW ["hello", "at a", "  at b"] =
        [mkRecord envW ("hello", ["at a", "  at b"])] ∧
      (mkRecord envW ("hello", ["at a", "  at b"])).stackTrace =
        some (String.intercalate "\n" ["at a", "  at b"])) :=
  ⟨⟨by decide, by decide, by decide⟩,
    stack_trace_attachment envW "hello" ["at a", "  at b"] (by decide) (by decide) (by decide)⟩

/-- Claim C3 as stated is false: the line `at x` is non-blank, matches no
registered format and neither basic-extractor probe, yet after the
record-starting line `hello` it is absorbed as a stack-trace continuation —
the output has a single record with message `hello` and no record with
message `at x`. -/
theorem never_fails_counterexample :
    (jsTrim "at x" == "") = false ∧
    tryFormats logFormats "at x" = none ∧
    extractBasicInfo envW "at x" = none ∧
    (parseLogLines envW ["hello", "at x"]).map (fun e => e.message) = ["hello"] := by
  exact ⟨by decide, by decide, by decide, by decide⟩

/-- Claim C3, amended: every record-starting line (one not absorbed as a
stack-trace continuation, i.e. the head of a record group) that matches no
registered format and neither basic-extractor probe still yields a record,
with level `UNKNOWN` and message equal to the full original line. -/
theorem never_fails_amended (env : JsEnv) (lines : List String) (g : String × List String)
    (hg : g ∈ groupLines lines)
    (hf : tryFormats logFormats g.1 = none)
    (hb : extractBasicInfo env g.1 = none) :
    mkRecord env g ∈ parseLogLines env lines ∧
    (mkRecord env g).level = "UNKNOWN" ∧
    (mkRecord env g).message = g.1 := by
  have hnb := groupLines_not_blank lines g hg
  have hstart : startEntry env g.1 = unknownEntry env g.1 := by
    unfold startEntry
    rw [hf, hb]
  have hne : g.1 ≠ "" := by
    intro hcon
    rw [hcon] at hnb
    simp [jsTrim] at hnb
  refine ⟨?_, ?_, ?_⟩
  · rw [parse_eq_groups]
    exact List.mem_map_of_mem _ hg
  · unfold mkRecord
    rw [finalizeRecord_level, hstart]
    rw [show (unknownEntry env g.1).level = some "UNKNOWN" from rfl]
    decide
  · unfold mkRecord
    rw [finalizeRecord_message, hstart]
    simp [unknownEntry, jsOrS, hne]

/-- Witness for the amended C3 at a concrete input. -/
theorem never_fails_amended_witness :
    (("~zzz~", ([] : List String)) ∈ groupLines ["~zzz~"] ∧
      tryFormats logFormats "~zzz~" = none ∧ extractBasicInfo envW "~zzz~" = none) ∧
    (mkRecord envW ("~zzz~", []) ∈ parseLogLines envW ["~zzz~"] ∧
      (mkRecord envW ("~zzz~", [])).level = "UNKNOWN" ∧
      (mkRecord envW ("~zzz~", [])).message = "~zzz~") :=
  ⟨⟨by decide, by decide, by decide⟩,
    never_fails_amended envW ["~zzz~"] ("~zzz~", []) (by decide) (by decide) (by decide)⟩

/-- Claim C6: every record of `parseLogContent` went through finalization:
its level is the upper-casing of a non-empty string (`UNKNOWN` when no level
was extracted), and its timestamp is the output of the timestamp normalizer —
the ISO form of a successfully parsed time or the ingestion instant. -/
theorem finalize_invariants (env : JsEnv) (content : String) (e : LogEntry)
    (he : e ∈ parseLogContent env content) :
    (∃ raw : Option String,
      e.level = jsToUpper (jsOrS raw "UNKNOWN") ∧ jsOrS raw "UNKNOWN" ≠ "") ∧
    (∃ raw : String, e.timestamp = normalizeTimestamp env raw) ∧
    ((∃ t : Int, e.timestamp = env.isoOf t) ∨ e.timestamp = env.nowIso) := by
  have hgr := parse_eq_groups env (splitLines content)
  rw [parseLogContent, hgr] at he
  obtain ⟨g, hg, rfl⟩ := List.mem_map.mp he
  refine ⟨⟨(startEntry env g.1).level, ?_, ?_⟩,
    ⟨jsOrS (startEntry env g.1).timestamp env.nowIso, ?_⟩, ?_⟩
  · exact finalizeRecord_level env _ g.2
  · cases hr : (startEntry env g.1).level with
    | none => simp [jsOrS]
    | some sv =>
      by_cases hsv : sv = "" <;> simp [jsOrS, hsv]
  · exact finalizeRecord_timestamp env _ g.2
  · rw [mkRecord, finalizeRecord_timestamp]
    exact normalizeTimestamp_shape env _

/-- Witness for C6 at a concrete input. -/
theorem finalize_invariants_witness :
    (mkRecord envW ("hello", []) ∈ parseLogContent envW "hello") ∧
    ((∃ raw : Option String,
        (mkRecord envW ("hello", [])).level = jsToUpper (jsOrS raw "UNKNOWN") ∧
          jsOrS raw "UNKNOWN" ≠ "") ∧
      (∃ raw : String,
        (mkRecord envW ("hello", [])).timestamp = normalizeTimestamp envW raw) ∧
      ((∃ t : Int, (mkRecord envW ("hello", [])).timestamp = envW.isoOf t) ∨
        (mkRecord envW ("hello", [])).timestamp = envW.nowIso)) :=
  ⟨by decide, finalize_invariants envW "hello" (mkRecord envW ("hello", [])) (by decide)⟩

/-! ## Claim theorems: concrete scenarios -/

theorem dynamicPipeExtract_additionalInfo (whole : String) (caps : Caps) :
    (dynamicPipeExtract whole caps).additionalInfo =
      (dynamicPipeSwitch (jsTrim ((capGet caps 1).getD ""))).additionalInfo := by
  unfold dynamicPipeExtract
  rcases reExec leadingIsoPattern whole with _ | ⟨w1, c1⟩ <;>
    rcases reSearch embeddedLevelPattern whole with _ | ⟨w2, c2⟩ <;>
    rcases reSearch embeddedSourcePattern whole with _ | ⟨w3, c3⟩ <;>
    simp only [] <;>
    (try split) <;>
    rfl

/-- Claim C1 evaluated at the failing input: the scenario-A line is
dispatched to the Tomcat/Catalina format, whose pattern defines no capture
groups while its extractor reads `match[1]`–`match[5]`; every extracted field
is therefore `undefined` and the finalized record has level `UNKNOWN`, empty
message, no source, and `thread` bound to `undefined` — not the structured
record the claim describes. -/
theorem scenario_a_actual : ∀ env : JsEnv,
    (parseLogLines env
        ["2023-05-29 10:15:30,123 INFO [http-nio-8080-exec-1] com.example.Class - Started"]).map
      (fun e => (e.level, e.message, e.source, e.additionalInfo)) =
    [("UNKNOWN", "", none, some [("thread", JVal.undef)])] :=
  fun _ => rfl

/-- Claim C2: a pipe payload `TRANSACTION|TX123|PAYMENT|…|SUCCESS|response=OK|ofsResponse=ACK`
produces `uniqueId = TX123`, `txType = PAYMENT`, `status = SUCCESS`,
`response = OK`, `ofsResponse = ACK` — for the Dynamic-Pipe extractor at any
original line carrying that captured payload, and end-to-end for a concrete
line through `parseLogLines`. -/
theorem transaction_payload_fields :
    (∀ (whole : String) (caps : Caps),
      capGet caps 1 =
          some "TRANSACTION|TX123|PAYMENT|2023-05-29T10:00:00+00:00|SUCCESS|response=OK|ofsResponse=ACK" →
      infoStr (dynamicPipeExtract whole caps).additionalInfo "uniqueId" = some "TX123" ∧
      infoStr (dynamicPipeExtract whole caps).additionalInfo "txType" = some "PAYMENT" ∧
      infoStr (dynamicPipeExtract whole caps).additionalInfo "status" = some "SUCCESS" ∧
      infoStr (dynamicPipeExtract whole caps).additionalInfo "response" = some "OK" ∧
      infoStr (dynamicPipeExtract whole caps).additionalInfo "ofsResponse" = some "ACK") ∧
    (∀ env : JsEnv,
      (parseLogLines env
          ["app: TRANSACTION|TX123|PAYMENT|2023-05-29T10:00:00+00:00|SUCCESS|response=OK|ofsResponse=ACK"]).map
        (fun e => (infoStr e.additionalInfo "uniqueId", infoStr e.additionalInfo "txType",
          infoStr e.additionalInfo "status", infoStr e.additionalInfo "response",
          infoStr e.additionalInfo "ofsResponse")) =
      [(some "TX123", some "PAYMENT", some "SUCCESS", some "OK", some "ACK")]) := by
  constructor
  · intro whole caps h
    rw [dynamicPipeExtract_additionalInfo, h]
    exact ⟨by decide, by decide, by decide, by decide, by decide⟩
  · intro env
    rfl

/-- Witness for the extractor half of C2 at concrete arguments. -/
theorem transaction_payload_fields_witness :
    capGet [(1, "TRANSACTION|TX123|PAYMENT|2023-05-29T10:00:00+00:00|SUCCESS|response=OK|ofsResponse=ACK")] 1 =
        some "TRANSACTION|TX123|PAYMENT|2023-05-29T10:00:00+00:00|SUCCESS|response=OK|ofsResponse=ACK" ∧
    (infoStr (dynamicPipeExtract ""
        [(1, "TRANSACTION|TX123|PAYMENT|2023-05-29T10:00:00+00:00|SUCCESS|response=OK|ofsResponse=ACK")]).additionalInfo
      "uniqueId" = some "TX123") :=
  ⟨by decide,
    (transaction_payload_fields.1 ""
      [(1, "TRANSACTION|TX123|PAYMENT|2023-05-29T10:00:00+00:00|SUCCESS|response=OK|ofsResponse=ACK")]
      (by decide)).1⟩

/-! ## Filter engine: predicate decomposition -/

theorem if_false_chain (c r : Bool) : (if c then false else r) = (!c && r) := by
  cases c <;> simp

theorem if_last_search (c x : Bool) : (if c then x else true) = !(c && !x) := by
  cases c <;> simp

theorem logPred_eq (env : JsEnv) (f : LogFilter) (log : LogEntry) :
    logPred env f log =
      (chkStartDate env log f.startDate && (chkEndDate env log f.endDate &&
        (chkLevel log f.level && (chkSource log f.source && (chkUniqueId log f.uniqueId &&
        (chkAccountNo log f.accountNo && (chkCardNo log f.cardNo && (chkUsername log f.username &&
        (chkStatus log f.status && (chkEventType log f.eventType &&
          chkSearch log f.searchTerm)))))))))) := by
  unfold logPred chkStartDate chkEndDate chkLevel chkSource chkUniqueId chkAccountNo
    chkCardNo chkUsername chkStatus chkEventType chkSearch
  rw [if_last_search, if_false_chain, if_false_chain, if_false_chain, if_false_chain,
    if_false_chain, if_false_chain, if_false_chain, if_false_chain, if_false_chain,
    if_false_chain]

theorem chk_pick {α : Type} (act bad : α → Bool) (a b : α)
    (h : (act a && act b) = false) :
    (!(act (if act a then a else b) && bad (if act a then a else b))) =
      (!(act a && bad a) && !(act b && bad b)) := by
  cases ha : act a <;> cases hb : act b <;> simp_all

theorem chkStartDate_pick (env : JsEnv) (log : LogEntry) (a b : Option (Option Int))
    (h : (a.isSome && b.isSome) = false) :
    chkStartDate env log (pickD a b) = (chkStartDate env log a && chkStartDate env log b) :=
  chk_pick Option.isSome
    (fun x => dateLt (env.parseDate log.timestamp) (x.getD none)) a b h

theorem chkEndDate_pick (env : JsEnv) (log : LogEntry) (a b : Option (Option Int))
    (h : (a.isSome && b.isSome) = false) :
    chkEndDate env log (pickD a b) = (chkEndDate env log a && chkEndDate env log b) :=
  chk_pick Option.isSome
    (fun x => dateLt (x.getD none) (env.parseDate log.timestamp)) a b h

theorem chkLevel_pick (log : LogEntry) (a b : Option String)
    (h : (jsTruthyS a && jsTruthyS b) = false) :
    chkLevel log (pickS a b) = (chkLevel log a && chkLevel log b) :=
  chk_pick jsTruthyS (fun x => jsToUpper log.level != jsToUpper (x.getD "")) a b h

theorem chkSource_pick (log : LogEntry) (a b : Option String)
    (h : (jsTruthyS a && jsTruthyS b) = false) :
    chkSource log (pickS a b) = (chkSource log a && chkSource log b) :=
  chk_pick jsTruthyS
    (fun x => jsTruthyS log.source && !jsIncludes (log.source.getD "") (x.getD "")) a b h

theorem chkUniqueId_pick (log : LogEntry) (a b : Option String)
    (h : (jsTruthyS a && jsTruthyS b) = false) :
    chkUniqueId log (pickS a b) = (chkUniqueId log a && chkUniqueId log b) :=
  chk_pick jsTruthyS
    (fun x => !((infoStr log.additionalInfo "uniqueId" == x) ||
      (log.message != "" && jsIncludes log.message (x.getD "")) ||
      (log.level == x.getD ""))) a b h

theorem chkAccountNo_pick (log : LogEntry) (a b : Option String)
    (h : (jsTruthyS a && jsTruthyS b) = false) :
    chkAccountNo log (pickS a b) = (chkAccountNo log a && chkAccountNo log b) :=
  chk_pick jsTruthyS
    (fun x => !((infoStr log.additionalInfo "accountNo" == x) ||
      (log.message != "" && jsIncludes log.message (x.getD "")) ||
      (log.level == x.getD ""))) a b h

theorem chkCardNo_pick (log : LogEntry) (a b : Option String)
    (h : (jsTruthyS a && jsTruthyS b) = false) :
    chkCardNo log (pickS a b) = (chkCardNo log a && chkCardNo log b) :=
  chk_pick jsTruthyS
    (fun x => !((infoStr log.additionalInfo "cardNo" == x) ||
      (log.message != "" && jsIncludes log.message (x.getD "")) ||
      (log.level == x.getD ""))) a b h

theorem chkUsername_pick (log : LogEntry) (a b : Option String)
    (h : (jsTruthyS a && jsTruthyS b) = false) :
    chkUsername log (pickS a b) = (chkUsername log a && chkUsername log b) :=
  chk_pick jsTruthyS
    (fun x => !((infoStr log.additionalInfo "username" == x) ||
      (log.message != "" && jsIncludes log.message (x.getD "")))) a b h

theorem chkStatus_pick (log : LogEntry) (a b : Option String)
    (h : (jsTruthyS a && jsTruthyS b) = false) :
    chkStatus log (pickS a b) = (chkStatus log a && chkStatus log b) :=
  chk_pick jsTruthyS
    (fun x => !((infoStr log.additionalInfo "status" == x) ||
      (log.message != "" &&
        jsIncludes (jsToUpper log.message) (jsToUpper (x.getD ""))))) a b h

theorem chkEventType_pick (log : LogEntry) (a b : Option String)
    (h : (jsTruthyS a && jsTruthyS b) = false) :
    chkEventType log (pickS a b) = (chkEventType log a && chkEventType log b) :=
  chk_pick jsTruthyS
    (fun x => !((log.eventType == x) ||
      (log.message != "" && jsIncludes log.message (x.getD "")))) a b h

theorem chkSearch_pick (log : LogEntry) (a b : Option String)
    (h : (jsTruthyS a && jsTruthyS b) = false) :
    chkSearch log (pickS a b) = (chkSearch log a && chkSearch log b) :=
  chk_pick jsTruthyS (fun x => !searchHit log (x.getD "")) a b h

theorem bool_eq_of_iff {a b : Bool} (h : a = true ↔ b = true) : a = b := by
  cases a <;> cases b <;> simp_all

theorem logPred_combine (env : JsEnv) (f1 f2 : LogFilter) (log : LogEntry)
    (h : DisjointF f1 f2) :
    logPred env (combineF f1 f2) log = (logPred env f1 log && logPred env f2 log) := by
  obtain ⟨h1, h2, h3, h4, h5, h6, h7, h8, h9, h10, h11⟩ := h
  rw [logPred_eq, logPred_eq, logPred_eq]
  simp only [combineF]
  rw [chkStartDate_pick env log _ _ h1, chkEndDate_pick env log _ _ h2,
    chkLevel_pick log _ _ h3, chkSource_pick log _ _ h4, chkUniqueId_pick log _ _ h5,
    chkAccountNo_pick log _ _ h6, chkCardNo_pick log _ _ h7, chkUsername_pick log _ _ h8,
    chkStatus_pick log _ _ h9, chkEventType_pick log _ _ h10, chkSearch_pick log _ _ h11]
  apply bool_eq_of_iff
  simp only [Bool.and_eq_true]
  tauto

/-! ## Claim theorems: filter engine -/

/-- Claim C8: filtering once by the union of two filters that constrain
disjoint field sets equals filtering by the first then the second, and
equals filtering by the second then the first. -/
theorem filter_conjunction (env : JsEnv) (logs : List LogEntry) (f1 f2 : LogFilter)
    (h : DisjointF f1 f2) :
    filterLogs env logs (combineF f1 f2) = filterLogs env (filterLogs env logs f1) f2 ∧
    filterLogs env logs (combineF f1 f2) = filterLogs env (filterLogs env logs f2) f1 := by
  have hp : ∀ log, logPred env (combineF f1 f2) log =
      (logPred env f1 log && logPred env f2 log) :=
    fun log => logPred_combine env f1 f2 log h
  unfold filterLogs
  constructor
  · rw [List.filter_filter]
    exact List.filter_congr fun a _ => by rw [hp a, Bool.and_comm]
  · rw [List.filter_filter]
    exact List.filter_congr fun a _ => by rw [hp a]

/-- Witness for C8 at concrete filters and records. -/
theorem filter_conjunction_witness :
    DisjointF { level := some "ERROR" } { status := some "OK" } ∧
    (filterLogs envW
        [{ timestamp := "t", level := "ERROR", message := "status OK" },
         { timestamp := "t", level := "INFO", message := "status OK" }]
        (combineF { level := some "ERROR" } { status := some "OK" }) =
      filterLogs envW
        (filterLogs envW
          [{ timestamp := "t", level := "ERROR", message := "status OK" },
           { timestamp := "t", level := "INFO", message := "status OK" }]
          { level := some "ERROR" })
        { status := some "OK" } ∧
      filterLogs envW
        [{ timestamp := "t", level := "ERROR", message := "status OK" },
         { timestamp := "t", level := "INFO", message := "status OK" }]
        (combineF { level := some "ERROR" } { status := some "OK" }) =
      filterLogs envW
        (filterLogs envW
          [{ timestamp := "t", level := "ERROR", message := "status OK" },
           { timestamp := "t", level := "INFO", message := "status OK" }]
          { status := some "OK" })
        { level := some "ERROR" }) :=
  ⟨by refine ⟨?_, ?_, ?_, ?_, ?_, ?_, ?_, ?_, ?_, ?_, ?_⟩ <;> decide,
    filter_conjunction envW _ { level := some "ERROR" } { status := some "OK" }
      (by refine ⟨?_, ?_, ?_, ?_, ?_, ?_, ?_, ?_, ?_, ?_, ?_⟩ <;> decide)⟩

/-- Claim C7 as stated is false: with a status filter set, a record whose
`level` field equals the filter value — but with no `additionalInfo.status`
and no message occurrence — is excluded: the status check never consults the
level slot. -/
theorem status_filter_counterexample :
    ({ timestamp := "t", level := "SUCCESS", message := "hello" } : LogEntry).level =
      "SUCCESS" ∧
    filterLogs envW [{ timestamp := "t", level := "SUCCESS", message := "hello" }]
      { status := some "SUCCESS" } = [] :=
  ⟨rfl, by decide⟩

/-- Claim C7, amended: a set status constraint is checked in exactly two
locations with OR semantics — `additionalInfo.status` (exact) and the
message (case-insensitive substring); the level slot is consulted only for
uniqueId, accountNo and cardNo, not for status. -/
theorem status_filter_two_locations (env : JsEnv) (f : LogFilter) (log : LogEntry)
    (sv : String) (hf : f.status = some sv) (hsv : sv ≠ "")
    (hp : logPred env f log = true) :
    infoStr log.additionalInfo "status" = some sv ∨
      (log.message ≠ "" ∧ jsIncludes (jsToUpper log.message) (jsToUpper sv) = true) := by
  rw [logPred_eq] at hp
  simp only [Bool.and_eq_true] at hp
  have hst := hp.2.2.2.2.2.2.2.2.1
  unfold chkStatus at hst
  rw [hf] at hst
  simp [jsTruthyS, hsv] at hst
  exact hst

/-- Witness for the amended C7 at a concrete record and filter. -/
theorem status_filter_two_locations_witness :
    (({ status := some "OK" } : LogFilter).status = some "OK" ∧ ("OK" : String) ≠ "" ∧
      logPred envW { status := some "OK" }
        { timestamp := "t", level := "X", message := "m",
          additionalInfo := some [("status", .str "OK")] } = true) ∧
    (infoStr (some [("status", JVal.str "OK")]) "status" = some "OK" ∨
      (("m" : String) ≠ "" ∧ jsIncludes (jsToUpper "m") (jsToUpper "OK") = true)) :=
  ⟨⟨rfl, by decide, by decide⟩,
    status_filter_two_locations envW { status := some "OK" }
      { timestamp := "t", level := "X", message := "m",
        additionalInfo := some [("status", .str "OK")] }
      "OK" rfl (by decide) (by decide)⟩

/-- Claim C10: a record with no source field is never excluded on account of
the source constraint — the source check passes unconditionally, and the
predicate coincides with the one that drops the source constraint. -/
theorem sourceless_passes_source_filter (env : JsEnv) (f : LogFilter) (log : LogEntry)
    (_hf : jsTruthyS f.source = true) (hs : log.source = none) :
    chkSource log f.source = true ∧
    logPred env f log = logPred env { f with source := none } log := by
  have h1 : chkSource log f.source = true := by
    unfold chkSource
    rw [hs]
    simp [jsTruthyS]
  have h2 : chkSource log (none : Option String) = true := by
    unfold chkSource
    simp [jsTruthyS]
  refine ⟨h1, ?_⟩
  rw [logPred_eq, logPred_eq]
  simp only [h1, h2]

/-- Witness for C10 at a concrete record and filter. -/
theorem sourceless_passes_source_filter_witness :
    (jsTruthyS ({ source := some "com.app" } : LogFilter).source = true ∧
      ({ timestamp := "t", level := "INFO", message := "m" } : LogEntry).source = none) ∧
    (chkSource { timestamp := "t", level := "INFO", message := "m" }
        ({ source := some "com.app" } : LogFilter).source = true ∧
      logPred envW { source := some "com.app" }
          { timestamp := "t", level := "INFO", message := "m" } =
        logPred envW { ({ source := some "com.app" } : LogFilter) with source := none }
          { timestamp := "t", level := "INFO", message := "m" }) :=
  ⟨⟨by decide, rfl⟩,
    sourceless_passes_source_filter envW { source := some "com.app" }
      { timestamp := "t", level := "INFO", message := "m" } (by decide) rfl⟩

/-! ## Claim theorems: statistics -/

theorem countLevel_counts (stats : LogStats) (log : LogEntry) :
    (countLevel stats log).totalEntries = stats.totalEntries ∧
    (countLevel stats log).errorCount + (countLevel stats log).warningCount +
        (countLevel stats log).infoCount ≤
      stats.errorCount + stats.warningCount + stats.infoCount + 1 := by
  unfold countLevel
  split_ifs <;> simp <;> omega

theorem statStep_counts (env : JsEnv) (stats : LogStats) (log : LogEntry) (s2 : LogStats)
    (h : statStep env stats log = some s2) :
    s2.totalEntries = stats.totalEntries ∧
    s2.errorCount + s2.warningCount + s2.infoCount ≤
      stats.errorCount + stats.warningCount + stats.infoCount + 1 := by
  unfold statStep at h
  cases hp : env.parseDate log.timestamp with
  | none => rw [hp] at h; exact absurd h (by simp)
  | some t =>
    rw [hp] at h
    obtain rfl := Option.some.inj h
    simp only [apply_ite LogStats.totalEntries, apply_ite LogStats.errorCount,
      apply_ite LogStats.warningCount, apply_ite LogStats.infoCount, ite_self]
    exact countLevel_counts stats log

theorem calcStats_fold (env : JsEnv) (logs : List LogEntry) :
    ∀ (stats s2 : LogStats), List.foldlM (statStep env) stats logs = some s2 →
      s2.totalEntries = stats.totalEntries ∧
      s2.errorCount + s2.warningCount + s2.infoCount ≤
        stats.errorCount + stats.warningCount + stats.infoCount + logs.length := by
  induction logs with
  | nil =>
    intro stats s2 h
    obtain rfl : stats = s2 := Option.some.inj h
    simp
  | cons l ls ih =>
    intro stats s2 h
    rw [List.foldlM_cons] at h
    cases hstep : statStep env stats l with
    | none => rw [hstep] at h; exact absurd h (by simp)
    | some mid =>
      rw [hstep] at h
      obtain ⟨ht, hc⟩ := statStep_counts env stats l mid hstep
      obtain ⟨ht2, hc2⟩ := ih mid s2 h
      refine ⟨ht2.trans ht, ?_⟩
      simp only [List.length_cons]
      omega

/-- Claim C9: for every record list, when `calculateStats` returns,
`errorCount + warningCount + infoCount ≤ totalEntries` and `totalEntries` is
the input length; levels outside ERROR / WARN-WARNING / INFO feed no
counter. -/
theorem stats_totals (env : JsEnv) (logs : List LogEntry) (stats : LogStats)
    (h : calculateStats env logs = some stats) :
    stats.errorCount + stats.warningCount + stats.infoCount ≤ stats.totalEntries ∧
    stats.totalEntries = logs.length := by
  obtain ⟨ht, hc⟩ := calcStats_fold env logs (statsInit logs.length) stats h
  unfold statsInit at ht hc
  simp only at ht hc
  exact ⟨by omega, ht⟩

/-- Witness for C9 at a concrete record list. -/
theorem stats_totals_witness :
    calculateStats envP
        [{ timestamp := "t", level := "ERROR", message := "m" },
         { timestamp := "t", level := "debug", message := "m" }] =
      some
        { totalEntries := 2, errorCount := 1, warningCount := 0, infoCount := 0,
          sourcesDistribution := [], timeDistribution := [("1970-01-01T00", 2)],
          accountNoDistribution := [], uniqueIdDistribution := [],
          eventTypeDistribution := [], statusDistribution := [],
          dateAccountNoDistribution := [], dateUniqueIdDistribution := [] } ∧
    (1 + 0 + 0 ≤ 2 ∧ (2 : Nat) = 2) := by
  constructor
  · decide
  · have h := stats_totals envP
      [{ timestamp := "t", level := "ERROR", message := "m" },
       { timestamp := "t", level := "debug", message := "m" }]
      { totalEntries := 2, errorCount := 1, warningCount := 0, infoCount := 0,
        sourcesDistribution := [], timeDistribution := [("1970-01-01T00", 2)],
        accountNoDistribution := [], uniqueIdDistribution := [],
        eventTypeDistribution := [], statusDistribution := [],
        dateAccountNoDistribution := [], dateUniqueIdDistribution := [] }
      (by decide)
    exact h

end LogManager
